import Mathlib

/-!
Shallow embedding of the maps-address-completion-service repository
(Rust sources: src/compress.rs, src/api.rs, src/parse_coordinates.rs,
src/sorted_vec.rs) together with proofs about the frozen claims.

Modelling conventions:
* Rust `u16`, `u32`, `usize` values are modelled as `Nat`; every arithmetic
  operation performed on them in the modelled code is bounds-checked in the
  source (parsing rejects overflow), so no wraparound is modelled.
* Rust `i32` / `i64` coordinates are modelled as `Int`; the only arithmetic
  on them is addition and truncating division, which the model performs with
  `Int.tdiv` (truncation toward zero, as in Rust).
* A Rust function that can panic is modelled with `Option`/`Except`, where
  `none` / `Except.error` stands for the panic.
* Rust `Vec<T>` is `List T`; `HashSet<T>` is modelled by the list of inserted
  elements, whose element set is recovered with `List.dedup`.
-/

/-! ## Character and string helpers (Rust standard library behaviour) -/

/-- Model of the per-character action of the Rust method `str::to_lowercase`
(Unicode lowercasing) restricted to the Basic Latin and Latin-1 blocks:
`A`..`Z` and `À`..`Þ` (except the multiplication sign `×`, U+00D7) map to the
code point 32 higher; every other character of those blocks is unchanged.
Characters outside Latin-1 are left unchanged by the model; no theorem in this
file depends on the lowercasing of such characters. -/
def rust_char_lower (c : Char) : Char :=
  if 65 ≤ c.toNat ∧ c.toNat ≤ 90 then Char.ofNat (c.toNat + 32)
  else if 192 ≤ c.toNat ∧ c.toNat ≤ 222 ∧ c.toNat ≠ 215 then Char.ofNat (c.toNat + 32)
  else c

/-- Model of Rust `str::to_lowercase` (see `rust_char_lower`): the Rust
method lowercases every character of the string. -/
def to_lowercase (s : String) : String :=
  String.mk (s.data.map rust_char_lower)

/-- Lowercasing that touches only the ASCII letters `A`..`Z`.  This is the
operation the specification text describes ("ASCII lowercasing", "lowercasing
only the ASCII letters A-Z"); it is defined here only to be compared with the
behaviour of the code, which uses `to_lowercase`. -/
def ascii_char_lower (c : Char) : Char :=
  if 65 ≤ c.toNat ∧ c.toNat ≤ 90 then Char.ofNat (c.toNat + 32) else c

/-- String version of `ascii_char_lower`; spec-side comparison definition. -/
def ascii_to_lowercase (s : String) : String :=
  String.mk (s.data.map ascii_char_lower)

/-- Code-point prefix test. -/
def list_is_pre : List Char → List Char → Bool
  | [], _ => true
  | _ :: _, [] => false
  | p :: ps, c :: cs => p = c && list_is_pre ps cs

/-- Model of Rust `str::starts_with(&str)`: a byte-prefix test on the UTF-8
encodings, which on whole strings coincides with the code-point prefix
test. -/
def starts_with (s p : String) : Bool := list_is_pre p.data s.data

/-- ASCII decimal digit test, `48 ≤ code ≤ 57` (used by the model of Rust
integer parsing, which accepts exactly the ASCII digits). -/
def is_ascii_digit (c : Char) : Bool :=
  48 ≤ c.toNat && c.toNat ≤ 57

/-- Value of a list of ASCII digit characters, accumulated left to right as
Rust `from_str_radix` does. -/
def digits_value (cs : List Char) : Nat :=
  cs.foldl (fun a c => a * 10 + (c.toNat - 48)) 0

/-- Rust unsigned-integer parsing accepts one optional leading plus sign. -/
def strip_plus (cs : List Char) : List Char :=
  match cs with
  | [] => []
  | c :: rest => if c = '+' then rest else c :: rest

/-- Model of Rust `str::parse::<uN>` for an unsigned integer type whose
largest value is `bound`: an optional leading `+`, then one or more ASCII
digits, no other characters; values above `bound` are an overflow error.
Returns `none` exactly when the Rust parse returns `Err`. -/
def parse_uint (bound : Nat) (s : String) : Option Nat :=
  let cs := strip_plus s.data
  if !cs.isEmpty && cs.all is_ascii_digit then
    if digits_value cs ≤ bound then some (digits_value cs) else none
  else none

/-- Rust `str::parse::<u16>` (used by `num_compressable` in src/compress.rs). -/
def parse_u16 (s : String) : Option Nat := parse_uint 65535 s

/-- Largest value of `usize` on the 64-bit targets the service runs on. -/
def usize_max : Nat := 2 ^ 64 - 1

/-- Rust `str::parse::<usize>` (used by `MaxItems::from_request` in
src/api.rs). -/
def parse_usize (s : String) : Option Nat := parse_uint usize_max s

/-- The ASCII digit character of a value below ten. -/
def dec_digit_char (n : Nat) : Char :=
  match n with
  | 0 => '0' | 1 => '1' | 2 => '2' | 3 => '3' | 4 => '4'
  | 5 => '5' | 6 => '6' | 7 => '7' | 8 => '8' | _ => '9'

/-- Fueled form of the decimal rendering loop: each step peels the last
digit.  The fuel only serves structural recursion; `to_dec_digits` supplies
enough for the loop to finish, so the `fuel = 0` branch is never reached. -/
def to_dec_digits_go (fuel n : Nat) : List Char :=
  match fuel with
  | 0 => []
  | fuel + 1 =>
    if n < 10 then [dec_digit_char n]
    else to_dec_digits_go fuel (n / 10) ++ [dec_digit_char (n % 10)]

/-- Decimal digit list of a natural number, most significant digit first,
with no leading zeros; the digit list Rust `u16::to_string` produces. -/
def to_dec_digits (n : Nat) : List Char :=
  to_dec_digits_go (n + 1) n

/-- Model of Rust `u16::to_string` (and of the integer rendering `{}` uses):
the decimal digits of the value, no sign, no leading zeros. -/
def u16_to_string (n : Nat) : String :=
  String.mk (to_dec_digits n)

/-! ## src/compress.rs : house number classification -/

/-- src/compress.rs `num_compressable`: the house-number string parses as a
`u16` and equals the decimal rendering of the parsed value. -/
def num_compressable (a : String) : Bool :=
  match parse_u16 a with
  | none => false
  | some i => a == u16_to_string i

/-! ## String ordering

Rust compares `String`s byte-lexicographically on their UTF-8 encodings;
UTF-8 preserves code-point order, so this is the lexicographic order on the
code-point sequences, modelled here by executable comparisons on
`String.data`. -/

/-- Strict lexicographic order on code-point sequences (Rust `str` `Ord`,
`Ordering::Less` case). -/
def chars_lt : List Char → List Char → Bool
  | [], [] => false
  | [], _ :: _ => true
  | _ :: _, [] => false
  | a :: as, b :: bs =>
    if a.toNat < b.toNat then true
    else if b.toNat < a.toNat then false
    else chars_lt as bs

/-- Lexicographic less-or-equal on code-point sequences (Rust `str` `Ord`,
comparison result not `Ordering::Greater`). -/
def chars_le : List Char → List Char → Bool
  | [], _ => true
  | _ :: _, [] => false
  | a :: as, b :: bs =>
    if a.toNat < b.toNat then true
    else if b.toNat < a.toNat then false
    else chars_le as bs

/-- Rust `String` strict comparison. -/
def str_lt (a b : String) : Bool := chars_lt a.data b.data

/-- Rust `String` less-or-equal comparison (what a `sort_by` with `cmp`
establishes between neighbours). -/
def str_le (a b : String) : Bool := chars_le a.data b.data

/-! ## src/sorted_vec.rs : SortedVec -/

/-- src/sorted_vec.rs `SortedVec::index_of` runs `slice::binary_search`.
This is the Rust binary search loop (left/right halving with an early return
on equality), written with explicit fuel; `binary_search` below supplies
enough fuel for the loop to finish. -/
def binary_search_go (l : List String) (e : String) :
    Nat → Nat → Nat → Option Nat
  | 0, _, _ => none
  | fuel + 1, left, right =>
    if left < right then
      let mid := left + (right - left) / 2
      let v := l.getD mid ""
      if str_lt v e then binary_search_go l e fuel (mid + 1) right
      else if str_lt e v then binary_search_go l e fuel left mid
      else some mid
    else none

/-- src/sorted_vec.rs `SortedVec::index_of`: `binary_search(e).ok()`. -/
def binary_search (l : List String) (e : String) : Option Nat :=
  binary_search_go l e (l.length + 1) 0 l.length

/-! ## src/compress.rs : the World data model -/

/-- src/compress.rs `enum Housenumber`. -/
inductive Housenumber
  | CleanInt (n : Nat)
  | Index (i : Nat)
deriving DecidableEq

/-- src/compress.rs `struct Street`. -/
structure Street where
  index : Nat
  housenumbers : List Housenumber
deriving DecidableEq

/-- src/compress.rs `struct PostalArea`. -/
structure PostalArea where
  code : String
  streets : List Street
deriving DecidableEq

/-- src/compress.rs `struct City`. -/
structure City where
  name : String
  areas : List PostalArea
deriving DecidableEq

/-- src/compress.rs `struct Country`. -/
structure Country where
  code : String
  cities : List City
deriving DecidableEq

/-- src/compress.rs `struct World`.  The two root tables are `SortedVec`s in
the source; here they are the underlying lists. -/
structure World where
  unique_streets : List String
  housenumbers : List String
  countries : List Country
deriving DecidableEq

/-! ## src/compress.rs : insertion

The Rust insertion methods walk a `Vec` with `iter_mut().find(..)`, mutate
the first element whose key matches exactly (`==`, case sensitive), and
otherwise construct a fresh node and `push` it at the end.  Each level is
modelled by a recursive function on the list that rewrites the first match
in place and appends the fresh node at the tail. -/

/-- src/compress.rs `Street::insert_housenumber`: push unless contained. -/
def Street.insert_housenumber (s : Street) (hn : Housenumber) : Street :=
  if s.housenumbers.contains hn then s
  else { s with housenumbers := s.housenumbers ++ [hn] }

/-- src/compress.rs `PostalArea::insert_address`: find the street by index or
push `Street::new(street_index)` after inserting into it. -/
def insert_street_list (l : List Street) (street_index : Nat) (hn : Housenumber) :
    List Street :=
  match l with
  | [] => [Street.insert_housenumber ⟨street_index, []⟩ hn]
  | s :: rest =>
    if s.index = street_index then Street.insert_housenumber s hn :: rest
    else s :: insert_street_list rest street_index hn

/-- src/compress.rs `PostalArea::insert_address`. -/
def PostalArea.insert_address (a : PostalArea) (street_index : Nat)
    (hn : Housenumber) : PostalArea :=
  { a with streets := insert_street_list a.streets street_index hn }

/-- src/compress.rs `City::insert_address` body: find the area by code or
push `PostalArea::new(postal_code)` after inserting into it. -/
def insert_area_list (l : List PostalArea) (postal_code : String)
    (street_index : Nat) (hn : Housenumber) : List PostalArea :=
  match l with
  | [] => [PostalArea.insert_address ⟨postal_code, []⟩ street_index hn]
  | a :: rest =>
    if a.code = postal_code then a.insert_address street_index hn :: rest
    else a :: insert_area_list rest postal_code street_index hn

/-- src/compress.rs `City::insert_address`. -/
def City.insert_address (c : City) (postal_code : String) (street_index : Nat)
    (hn : Housenumber) : City :=
  { c with areas := insert_area_list c.areas postal_code street_index hn }

/-- src/compress.rs `Country::insert_address` body: find the city by name or
push `City::new(city)` after inserting into it. -/
def insert_city_list (l : List City) (city : String) (postal_code : String)
    (street_index : Nat) (hn : Housenumber) : List City :=
  match l with
  | [] => [City.insert_address ⟨city, []⟩ postal_code street_index hn]
  | c :: rest =>
    if c.name = city then c.insert_address postal_code street_index hn :: rest
    else c :: insert_city_list rest city postal_code street_index hn

/-- src/compress.rs `Country::insert_address`. -/
def Country.insert_address (c : Country) (city postal_code : String)
    (street_index : Nat) (hn : Housenumber) : Country :=
  { c with cities := insert_city_list c.cities city postal_code street_index hn }

/-- src/compress.rs `World::insert_address` body: find the country by code or
push `Country::new(country_code)` after inserting into it. -/
def insert_country_list (l : List Country) (country_code city zip : String)
    (street_index : Nat) (hn : Housenumber) : List Country :=
  match l with
  | [] => [Country.insert_address ⟨country_code, []⟩ city zip street_index hn]
  | c :: rest =>
    if c.code = country_code then c.insert_address city zip street_index hn :: rest
    else c :: insert_country_list rest country_code city zip street_index hn

/-- The house-number classification step at the top of
src/compress.rs `World::insert_address`: a compressable number becomes
`CleanInt` of its parsed value (the `unwrap` cannot fail because
`num_compressable` just parsed the string), anything else is looked up in the
root `housenumbers` table, where a missing entry is an `expect` panic,
modelled by `none`. -/
def World.classify_housenumber (w : World) (hn : String) : Option Housenumber :=
  if num_compressable hn then (parse_u16 hn).map Housenumber.CleanInt
  else (binary_search w.housenumbers hn).map Housenumber.Index

/-- src/compress.rs `World::insert_address`.  `none` models the `expect`
panic raised when the house number or the street name is missing from the
corresponding root table. -/
def World.insert_address (w : World) (country_code city_name zip street
    housenumber : String) : Option World :=
  match w.classify_housenumber housenumber, binary_search w.unique_streets street with
  | some hn, some street_index =>
    some { w with
           countries := insert_country_list w.countries country_code city_name zip
             street_index hn }
  | _, _ => none

/-! ## src/compress.rs : rendering and sorting -/

/-- House-number rendering as performed at both use sites in the source
(`Street::housenumber_iter` with `w.housenumbers[i]`, and the sort comparator
in `World::sort` with `.get(i).expect(..)`): `CleanInt` renders as the
decimal string, `Index` reads the root table.  An out-of-range index panics
in the source; the model renders it as the empty string (no theorem below
relies on out-of-range indices). -/
def World.render_housenumber (w : World) : Housenumber → String
  | .CleanInt v => u16_to_string v
  | .Index i => w.housenumbers.getD i ""

/-! Rust `Vec::sort_by` is a stable sort; it is modelled by the stable
`List.insertionSort`, which produces the same (stably sorted) list. -/

/-- src/compress.rs `Street::sort_with`: sorts the house numbers with the
comparator built in `World::sort`, which compares rendered forms. -/
def Street.sort_with (w : World) (s : Street) : Street :=
  { s with
    housenumbers :=
      s.housenumbers.insertionSort
        (fun a b => str_le (w.render_housenumber a) (w.render_housenumber b) = true) }

/-- src/compress.rs `PostalArea::sort_with`: streets by `index`, then each
street. -/
def PostalArea.sort_with (w : World) (a : PostalArea) : PostalArea :=
  { a with
    streets :=
      (a.streets.insertionSort (fun x y => x.index ≤ y.index)).map
        (Street.sort_with w) }

/-- src/compress.rs `City::sort_with`: areas by `code`, then each area. -/
def City.sort_with (w : World) (c : City) : City :=
  { c with
    areas :=
      (c.areas.insertionSort (fun x y => str_le x.code y.code = true)).map
        (PostalArea.sort_with w) }

/-- src/compress.rs `Country::sort_with`: cities by `name`, then each city. -/
def Country.sort_with (w : World) (c : Country) : Country :=
  { c with
    cities :=
      (c.cities.insertionSort (fun x y => str_le x.name y.name = true)).map
        (City.sort_with w) }

/-- src/compress.rs `World::sort`: countries by `code`, then each country,
with the house-number comparator closing over the root `housenumbers` table
of the world being sorted (the table itself is never modified). -/
def World.sortW (w : World) : World :=
  { w with
    countries :=
      (w.countries.insertionSort (fun x y => str_le x.code y.code = true)).map
        (Country.sort_with w) }

/-! ## src/compress.rs : lookup and prefix iteration (query side) -/

/-- src/compress.rs `World::get_country`: first country whose lowercased code
equals the lowercased query. -/
def World.get_country (w : World) (country_code : String) : Option Country :=
  w.countries.find? (fun c => to_lowercase c.code == to_lowercase country_code)

/-- src/compress.rs `Country::get_city`. -/
def Country.get_city (c : Country) (city_name : String) : Option City :=
  c.cities.find? (fun ci => to_lowercase ci.name == to_lowercase city_name)

/-- src/compress.rs `City::get_postal_area`. -/
def City.get_postal_area (c : City) (zip : String) : Option PostalArea :=
  c.areas.find? (fun a => to_lowercase a.code == to_lowercase zip)

/-- src/compress.rs `PostalArea::get_street`: compares the interned street
name (read from the root table; an out-of-range street id panics in the
source and reads as the empty string here) against the query, lowercased on
both sides. -/
def PostalArea.get_street (a : PostalArea) (street : String) (w : World) :
    Option Street :=
  a.streets.find?
    (fun s => to_lowercase (w.unique_streets.getD s.index "") == to_lowercase street)

/-- src/compress.rs `Country::iter_cities_prefixed`: filter by lowercased
prefix, then project the name. -/
def Country.iter_cities_prefixed (c : Country) (pre : String) : List String :=
  (c.cities.filter
      (fun ci => starts_with (to_lowercase ci.name) (to_lowercase pre))).map
    (fun ci => ci.name)

/-- src/compress.rs `City::iter_zips_prefixed`. -/
def City.iter_zips_prefixed (c : City) (pre : String) : List String :=
  (c.areas.filter
      (fun a => starts_with (to_lowercase a.code) (to_lowercase pre))).map
    (fun a => a.code)

/-- src/compress.rs `PostalArea::iter_streets_prefixed`: render street ids
through the root table, then filter by lowercased prefix. -/
def PostalArea.iter_streets_prefixed (a : PostalArea) (pre : String)
    (w : World) : List String :=
  (a.streets.map (fun s => w.unique_streets.getD s.index "")).filter
    (fun st => starts_with (to_lowercase st) (to_lowercase pre))

/-- src/compress.rs `Street::housenumber_iter`: rendered house numbers in
stored order. -/
def Street.housenumber_iter (s : Street) (w : World) : List String :=
  s.housenumbers.map (fun h => w.render_housenumber h)

/-- src/compress.rs `Street::iter_housenumbers_prefixed`. -/
def Street.iter_housenumbers_prefixed (s : Street) (pre : String) (w : World) :
    List String :=
  (s.housenumber_iter w).filter
    (fun hn => starts_with (to_lowercase hn) (to_lowercase pre))

/-! ## src/api.rs : the four HTTP handlers

A handler result is `Except (Nat × String) (List String)`: `Except.error`
carries the HTTP status code (404) and the plain-text body, `Except.ok` the
JSON array of strings (status 200).  The `max-items` header is modelled as
`Option String` (`none` when the header is absent; a header value whose
`to_str` fails in the source also falls to the unbounded default). -/

/-- src/api.rs `MaxItems::from_request`: parse the header value, with
`usize::MAX` (unbounded) as the default for an absent or unparseable one. -/
def max_items_from_header (h : Option String) : Nat :=
  match h with
  | some v => (parse_usize v).getD usize_max
  | none => usize_max

/-- The `and_then` lookup chain of src/api.rs `get_housenumbers`. -/
def World.lookup_street_path (w : World) (cc ci z st : String) : Option Street :=
  (((w.get_country cc).bind (fun c => c.get_city ci)).bind
      (fun c => c.get_postal_area z)).bind
    (fun a => a.get_street st w)

/-- The `and_then` lookup chain of src/api.rs `get_streets`. -/
def World.lookup_area_path (w : World) (cc ci z : String) : Option PostalArea :=
  ((w.get_country cc).bind (fun c => c.get_city ci)).bind
    (fun c => c.get_postal_area z)

/-- The `and_then` lookup chain of src/api.rs `get_zips`. -/
def World.lookup_city_path (w : World) (cc ci : String) : Option City :=
  (w.get_country cc).bind (fun c => c.get_city ci)

/-- src/api.rs `get_housenumbers`. -/
def get_housenumbers (w : World) (cc ci z st : String) (pre : Option String)
    (hdr : Option String) : Except (Nat × String) (List String) :=
  match w.lookup_street_path cc ci z st with
  | none => .error (404, "Country/city/zip/street not found")
  | some s =>
    .ok ((s.iter_housenumbers_prefixed (pre.getD "") w).take
      (max_items_from_header hdr))

/-- src/api.rs `get_streets`. -/
def get_streets (w : World) (cc ci z : String) (pre : Option String)
    (hdr : Option String) : Except (Nat × String) (List String) :=
  match w.lookup_area_path cc ci z with
  | none => .error (404, "Country/city/zip not found")
  | some a =>
    .ok ((a.iter_streets_prefixed (pre.getD "") w).take
      (max_items_from_header hdr))

/-- src/api.rs `get_zips`. -/
def get_zips (w : World) (cc ci : String) (pre : Option String)
    (hdr : Option String) : Except (Nat × String) (List String) :=
  match w.lookup_city_path cc ci with
  | none => .error (404, "Country/city not found")
  | some c =>
    .ok ((c.iter_zips_prefixed (pre.getD "")).take (max_items_from_header hdr))

/-- src/api.rs `get_cities`; the 404 body interpolates the queried country
code (`format!`). -/
def get_cities (w : World) (cc : String) (pre : Option String)
    (hdr : Option String) : Except (Nat × String) (List String) :=
  match w.get_country cc with
  | none => .error (404, "Country " ++ cc ++ " not found")
  | some c =>
    .ok ((c.iter_cities_prefixed (pre.getD "")).take (max_items_from_header hdr))

/-- Specification helper for the claims about `max-items`: `get_cities` with
no bound applied (the handler body without the `.take(m)`). -/
def get_cities_unbounded (w : World) (cc : String) (pre : Option String) :
    Except (Nat × String) (List String) :=
  match w.get_country cc with
  | none => .error (404, "Country " ++ cc ++ " not found")
  | some c => .ok (c.iter_cities_prefixed (pre.getD ""))

/-! ## src/parse_coordinates.rs : the two-pass extractor

OSM entities are modelled by `OsmObj` (node / way / relation) with tags as an
association list.  `osmpbfreader` yields the entities of the file in order;
the file is modelled as a `List OsmObj`, traversed once by each pass (the
reader is rewound between the passes).  I/O, progress logging and PBF decode
errors are outside the model; `pass_one` never fails in the model and
`pass_two` fails exactly where the source returns an error or panics. -/

/-- Tag dictionary: lookup returns the value of the first pair whose key
matches. -/
def tags_get (t : List (String × String)) (k : String) : Option String :=
  (t.find? (fun p => p.1 == k)).map (fun p => p.2)

/-- src/parse_coordinates.rs `is_address`: both `addr:housenumber` and
`addr:street` are present. -/
def is_address (t : List (String × String)) : Bool :=
  (tags_get t "addr:housenumber").isSome && (tags_get t "addr:street").isSome

/-- src/parse_coordinates.rs `struct IncompleteAddressCoord`: the output
record written as one JSON line. -/
structure IncompleteAddressCoord where
  country : Option String
  city : Option String
  zip : Option String
  street : String
  housenumber : String
  long : Int
  lat : Int
deriving DecidableEq

/-- src/parse_coordinates.rs `IncompleteAddress::from_tags` (a constructor
defined in the same file as the passes; it reads each output field from the
tag of the same meaning). -/
def incomplete_address_from_tags (t : List (String × String)) :
    Option (Option String × Option String × Option String × String × String) :=
  match tags_get t "addr:street", tags_get t "addr:housenumber" with
  | some st, some hn =>
    some (tags_get t "addr:country", tags_get t "addr:city",
      tags_get t "addr:postcode", st, hn)
  | _, _ => none

/-- The record literal built for an address node in
src/parse_coordinates.rs `pass_one` (lines 287-295), field by field:
`housenumber` and `street` from their tags (the `unwrap` is guarded by
`is_address`, modelled with a default that is never reached), and `zip`,
`city` and `country` all read from the `addr:postcode` tag. -/
def node_record (t : List (String × String)) (decimicro_lon decimicro_lat : Int) :
    IncompleteAddressCoord :=
  { housenumber := (tags_get t "addr:housenumber").getD ""
    street := (tags_get t "addr:street").getD ""
    zip := tags_get t "addr:postcode"
    city := tags_get t "addr:postcode"
    country := tags_get t "addr:postcode"
    lat := decimicro_lat
    long := decimicro_lon }

/-- The record literal built for an address way in
src/parse_coordinates.rs `pass_two` (lines 355-363).  The source destructures
the averaged pair as `(decimicro_lat, decimicro_lon)` although `avg_coords`
returns the averages of the stored `(lon, lat)` pairs in that order, so the
first component `a` (the longitude average) lands in `lat` and the second
`b` in `long`. -/
def way_record (t : List (String × String)) (a b : Int) :
    IncompleteAddressCoord :=
  { housenumber := (tags_get t "addr:housenumber").getD ""
    street := (tags_get t "addr:street").getD ""
    zip := tags_get t "addr:postcode"
    city := tags_get t "addr:postcode"
    country := tags_get t "addr:postcode"
    lat := a
    long := b }

/-- OSM entity as decoded by `osmpbfreader`. -/
inductive OsmObj
  | node (id : Int) (tags : List (String × String))
      (decimicro_lon decimicro_lat : Int)
  | way (id : Int) (tags : List (String × String)) (nodes : List Int)
  | relation (id : Int) (tags : List (String × String))
deriving DecidableEq

/-- The tags of an entity (the `match` at the top of both pass loops). -/
def OsmObj.tags : OsmObj → List (String × String)
  | .node _ t _ _ => t
  | .way _ t _ => t
  | .relation _ t => t

/-- src/parse_coordinates.rs `avg_coords`, accumulator form of its loop:
`count` is incremented before the `item?` early return, and after the loop
both i64 sums are divided by `count`.  The source performs `a / count` with
no guard; `count = 0` is an integer division by zero, which panics in Rust
and is `Except.error ()` here. -/
def avg_coords_go (a b count : Int) :
    List (Option (Int × Int)) → Except Unit (Option (Int × Int))
  | [] =>
    if count = 0 then .error ()
    else .ok (some (Int.tdiv a count, Int.tdiv b count))
  | none :: _ => .ok none
  | some (aa, bb) :: rest => avg_coords_go (a + aa) (b + bb) (count + 1) rest

/-- src/parse_coordinates.rs `avg_coords`. -/
def avg_coords (l : List (Option (Int × Int))) : Except Unit (Option (Int × Int)) :=
  avg_coords_go 0 0 0 l

/-- src/parse_coordinates.rs `pass_one`: walk the file, emit one record per
address-bearing node, collect every node id referenced by an address-bearing
way, skip relations.  Returns (emitted records, required node ids). -/
def pass_one : List OsmObj → List IncompleteAddressCoord × List Int
  | [] => ([], [])
  | o :: rest =>
    let r := pass_one rest
    if is_address o.tags then
      match o with
      | .node _ t lon lat => (node_record t lon lat :: r.1, r.2)
      | .way _ _ nds => (r.1, nds ++ r.2)
      | .relation _ _ => r
    else r

/-- Failure modes of the extraction passes: a returned error message, or a
Rust panic. -/
inductive Failure
  | panic
  | failure (msg : String)
deriving DecidableEq

/-- Node coordinates collected during pass two, a `HashMap<i64,(i32,i32)>`
in the source; modelled as an association list where insertion prepends (the
lookup sees the newest binding, as a `HashMap` insert overwrites). -/
def coords_get (m : List (Int × Int × Int)) (id : Int) : Option (Int × Int) :=
  (m.find? (fun p => p.1 == id)).map (fun p => p.2)

/-- src/parse_coordinates.rs `pass_two` loop: a node that is address-bearing
and required by some way stores its `(lon, lat)` pair; an address-bearing
way averages the looked-up coordinates of its node list, emitting a record
on success, returning the `Way .. requires nodes which have not been read
yet` error when a node is missing, and panicking (division by zero in
`avg_coords`) when its node list is empty; relations are skipped.  Note that
only nodes that themselves carry the address tags pass the `is_address`
guard at the top of the loop body. -/
def pass_two_go (required : List Int) (coords : List (Int × Int × Int)) :
    List OsmObj → Except Failure (List IncompleteAddressCoord)
  | [] => .ok []
  | o :: rest =>
    if is_address o.tags then
      match o with
      | .relation _ _ => pass_two_go required coords rest
      | .way id t nds =>
        match avg_coords (nds.map (fun nid => coords_get coords nid)) with
        | .error () => .error .panic
        | .ok none =>
          .error (.failure
            ("Way " ++ toString id ++ " requires nodes which have not been read yet"))
        | .ok (some (a, b)) =>
          (pass_two_go required coords rest).map
            (fun out => way_record t a b :: out)
      | .node id _ lon lat =>
        if required.contains id then
          pass_two_go required ((id, lon, lat) :: coords) rest
        else pass_two_go required coords rest
    else pass_two_go required coords rest

/-- src/parse_coordinates.rs `pass_two` (after the rewind). -/
def pass_two (required : List Int) (objs : List OsmObj) :
    Except Failure (List IncompleteAddressCoord) :=
  pass_two_go required [] objs

/-- src/parse_coordinates.rs `process_osm_pdf_to_stdout`: pass one, then
pass two over the rewound file; the emitted stream is the pass-one records
followed by the pass-two records. -/
def process_osm (objs : List OsmObj) :
    Except Failure (List IncompleteAddressCoord) :=
  let r := pass_one objs
  match pass_two r.2 objs with
  | .error f => .error f
  | .ok out2 => .ok (r.1 ++ out2)

/-- Address-bearing node test, for counting. -/
def is_addr_node : OsmObj → Bool
  | .node _ t _ _ => is_address t
  | _ => false

/-- Address-bearing way test, for counting. -/
def is_addr_way : OsmObj → Bool
  | .way _ t _ => is_address t
  | _ => false

/-! ## src/compress.rs : the build pipeline (read_and_compress + compress)

`read_and_compress` reads JSON lines into `Address` values (five required
string fields), stages every street name and every non-compressable house
number in `HashSet`s, turns both sets into sorted root tables, and hands
everything to `compress`, which pops the address vector from the back
(inserting in reverse order), then sorts the world.  The country-code
normalisation step (`autocorrect_country_code`, backed by the external
`codes_iso_3166` table) rewrites only the `country` field before staging; the
pipeline is modelled from the records as staged, which quantifies over every
possible normalised stream. -/

/-- src/parse.rs `struct Address` as deserialized in src/compress.rs. -/
structure Address where
  country : String
  city : String
  postcode : String
  street : String
  housenumber : String
deriving DecidableEq

/-- src/sorted_vec.rs `From<HashSet<T>> for SortedVec<T>`: the distinct
staged elements, sorted (the `HashSet` is modelled by the insertion list,
whose distinct elements `List.dedup` recovers). -/
def sorted_vec_of_set (l : List String) : List String :=
  l.dedup.insertionSort (fun a b => str_le a b = true)

/-- The staging loop of src/compress.rs `read_and_compress`: the root
street table from every street, the root house-number table from every
house number that is not compressable. -/
def build_tables (addrs : List Address) : List String × List String :=
  (sorted_vec_of_set (addrs.map (fun a => a.street)),
   sorted_vec_of_set
     ((addrs.filter (fun a => !num_compressable a.housenumber)).map
       (fun a => a.housenumber)))

/-- One iteration of the insertion loop of src/compress.rs `compress`:
insert the five fields of the next address, propagating a panic. -/
def insert_step (ow : Option World) (a : Address) : Option World :=
  ow.bind (fun w =>
    w.insert_address a.country a.city a.postcode a.street a.housenumber)

/-- src/compress.rs `compress`: build `World::new` from the two tables and
insert every address, popping from the back of the vector, then sort.
`none` models an `expect` panic inside `World::insert_address`. -/
def compress_pipeline (addrs : List Address) : Option World :=
  let t := build_tables addrs
  let w0 : World := ⟨t.1, t.2, []⟩
  (addrs.reverse.foldl insert_step (some w0)).map World.sortW

/-! ## Concrete instances used by counterexamples and witnesses -/

/-- The minimal build fixture of the specification: three records for
DE/Berlin/10115/Invalidenstr. with house numbers 117, 118 and 117a. -/
def fixture : List Address :=
  [⟨"DE", "Berlin", "10115", "Invalidenstr.", "117"⟩,
   ⟨"DE", "Berlin", "10115", "Invalidenstr.", "118"⟩,
   ⟨"DE", "Berlin", "10115", "Invalidenstr.", "117a"⟩]

/-- A world with no countries and empty root tables. -/
def empty_world : World := ⟨[], [], []⟩

/-- A world whose only lookup path is DE / Berlin / 10115 / street id 0
(named `"Foo"` in the root table). -/
def c3_world : World :=
  ⟨["Foo"], [],
   [⟨"DE", [⟨"Berlin", [⟨"10115", [⟨0, [Housenumber.CleanInt 1]⟩]⟩]⟩]⟩]⟩

/-- A world whose keys contain the non-ASCII letter `Ö` at every level. -/
def umlaut_world : World :=
  ⟨["Ögasse"], ["Ö1"],
   [⟨"Ö", [⟨"Öhr", [⟨"Ö5", [⟨0, [Housenumber.Index 0]⟩]⟩]⟩]⟩]⟩

/-- Tags of an address-bearing entity with no optional tags. -/
def rel_tags : List (String × String) :=
  [("addr:housenumber", "1"), ("addr:street", "A")]

/-- Tags of an address-bearing entity carrying country, city and postcode. -/
def c1_tags : List (String × String) :=
  [("addr:housenumber", "117"), ("addr:street", "Invalidenstr."),
   ("addr:country", "DE"), ("addr:city", "Berlin"),
   ("addr:postcode", "10115")]

/-! # Theorems

First the library of facts about decimal rendering and parsing that the
claims about `num_compressable` rest on. -/

theorem dec_digit_char_toNat {n : Nat} (h : n < 10) :
    (dec_digit_char n).toNat = 48 + n := by
  interval_cases n <;> decide

theorem dec_digit_char_digit {n : Nat} (h : n < 10) :
    is_ascii_digit (dec_digit_char n) = true := by
  interval_cases n <;> decide

theorem digits_value_append (l : List Char) (c : Char) :
    digits_value (l ++ [c]) = digits_value l * 10 + (c.toNat - 48) := by
  simp [digits_value, List.foldl_append]

theorem to_dec_digits_go_spec (fuel : Nat) :
    ∀ n, n < fuel →
      to_dec_digits_go fuel n ≠ []
      ∧ (to_dec_digits_go fuel n).all is_ascii_digit = true
      ∧ digits_value (to_dec_digits_go fuel n) = n := by
  induction fuel with
  | zero => intro n h; omega
  | succ f ih =>
    intro n h
    by_cases h10 : n < 10
    · refine ⟨by simp [to_dec_digits_go, h10], ?_, ?_⟩
      · simp [to_dec_digits_go, h10, dec_digit_char_digit h10]
      · simp [to_dec_digits_go, h10, digits_value, dec_digit_char_toNat h10]
    · have hdiv : n / 10 < f := by
        have := Nat.div_lt_self (show 0 < n by omega) (show (1 : Nat) < 10 by omega)
        omega
      obtain ⟨h1, h2, h3⟩ := ih (n / 10) hdiv
      refine ⟨by simp [to_dec_digits_go, h10], ?_, ?_⟩
      · simp only [to_dec_digits_go, if_neg h10, List.all_append, h2]
        simp [dec_digit_char_digit (n := n % 10) (by omega)]
      · simp only [to_dec_digits_go, if_neg h10, digits_value_append, h3,
          dec_digit_char_toNat (n := n % 10) (by omega)]
        omega

theorem to_dec_digits_spec (n : Nat) :
    to_dec_digits n ≠ []
    ∧ (to_dec_digits n).all is_ascii_digit = true
    ∧ digits_value (to_dec_digits n) = n :=
  to_dec_digits_go_spec (n + 1) n (by omega)

theorem strip_plus_of_digits {cs : List Char}
    (h : cs.all is_ascii_digit = true) : strip_plus cs = cs := by
  cases cs with
  | nil => rfl
  | cons c rest =>
    have hc : is_ascii_digit c = true := by
      simp [List.all_cons] at h; exact h.1
    have hne : c ≠ '+' := by
      intro he
      rw [he] at hc
      simp [is_ascii_digit] at hc
    simp [strip_plus, hne]

theorem parse_uint_render {bound n : Nat} (h : n ≤ bound) :
    parse_uint bound (u16_to_string n) = some n := by
  obtain ⟨h1, h2, h3⟩ := to_dec_digits_spec n
  have hdata : (u16_to_string n).data = to_dec_digits n := rfl
  unfold parse_uint
  rw [hdata, strip_plus_of_digits h2]
  have hempty : (to_dec_digits n).isEmpty = false := by
    cases hd : to_dec_digits n with
    | nil => exact absurd hd h1
    | cons a l => rfl
  simp [hempty, h2, h3, h]

theorem parse_u16_render {n : Nat} (h : n ≤ 65535) :
    parse_u16 (u16_to_string n) = some n :=
  parse_uint_render h

theorem num_compressable_render {n : Nat} (h : n ≤ 65535) :
    num_compressable (u16_to_string n) = true := by
  unfold num_compressable
  rw [parse_u16_render h]
  simp

/-- Claim C5: for every house-number source string s, the builder classifies
s as Housenumber.CleanInt n if and only if s parses as a u16 value n and s
equals the decimal rendering of n; in particular "0" and "65535" are
classified CleanInt while "01", "65536" and "12a" are not. -/
theorem claim_C5_cleanint :
    (∀ (w : World) (s : String) (n : Nat),
        w.classify_housenumber s = some (Housenumber.CleanInt n) ↔
          (parse_u16 s = some n ∧ s = u16_to_string n))
    ∧ num_compressable "0" = true
    ∧ num_compressable "65535" = true
    ∧ num_compressable "01" = false
    ∧ num_compressable "65536" = false
    ∧ num_compressable "12a" = false := by
  refine ⟨?_, by decide, by decide, by decide, by decide, by decide⟩
  intro w s n
  constructor
  · intro h
    unfold World.classify_housenumber at h
    by_cases hc : num_compressable s
    · rw [if_pos hc] at h
      cases hp : parse_u16 s with
      | none => rw [hp] at h; simp at h
      | some m =>
        rw [hp] at h
        have hmn : m = n := by
          have h2 : Housenumber.CleanInt m = Housenumber.CleanInt n :=
            Option.some.inj h
          exact Housenumber.CleanInt.inj h2
        subst hmn
        refine ⟨rfl, ?_⟩
        unfold num_compressable at hc
        rw [hp] at hc
        exact eq_of_beq hc
    · rw [if_neg hc] at h
      cases hb : binary_search w.housenumbers s with
      | none => rw [hb] at h; simp at h
      | some i => rw [hb] at h; simp at h
  · rintro ⟨hp, hs⟩
    have hc : num_compressable s = true := by
      unfold num_compressable
      rw [hp, hs]
      simp
    unfold World.classify_housenumber
    rw [if_pos hc, hp]
    rfl

/-- Witness for claim C5 at the concrete string "117". -/
theorem claim_C5_witness :
    empty_world.classify_housenumber "117" = some (Housenumber.CleanInt 117)
    ∧ parse_u16 "117" = some 117 ∧ "117" = u16_to_string 117 :=
  ⟨(claim_C5_cleanint.1 empty_world "117" 117).mpr ⟨by decide, by decide⟩,
   by decide, by decide⟩

theorem mem_sorted_vec_of_set {s : String} {l : List String} :
    s ∈ sorted_vec_of_set l ↔ s ∈ l := by
  unfold sorted_vec_of_set
  rw [(List.perm_insertionSort _ _).mem_iff, List.mem_dedup]

theorem insert_address_housenumbers {w w' : World} {a b c d e : String}
    (h : w.insert_address a b c d e = some w') :
    w'.housenumbers = w.housenumbers := by
  unfold World.insert_address at h
  cases h1 : w.classify_housenumber e with
  | none => rw [h1] at h; exact absurd h (by simp)
  | some hn =>
    cases h2 : binary_search w.unique_streets d with
    | none => rw [h1, h2] at h; exact absurd h (by simp)
    | some si =>
      rw [h1, h2] at h
      have := Option.some.inj h
      rw [← this]

theorem foldl_insert_none (l : List Address) :
    (l.foldl insert_step none) = none := by
  induction l with
  | nil => rfl
  | cons a rest ih =>
    rw [List.foldl_cons]
    have : insert_step none a = none := rfl
    rw [this, ih]

theorem foldl_insert_housenumbers :
    ∀ (l : List Address) (w w' : World),
      (l.foldl insert_step (some w)) = some w' →
      w'.housenumbers = w.housenumbers := by
  intro l
  induction l with
  | nil =>
    intro w w' h
    have := Option.some.inj h
    rw [← this]
  | cons a rest ih =>
    intro w w' h
    rw [List.foldl_cons] at h
    cases h2 : w.insert_address a.country a.city a.postcode a.street a.housenumber with
    | none =>
      rw [show insert_step (some w) a = none from h2] at h
      rw [foldl_insert_none] at h
      cases h
    | some w1 =>
      rw [show insert_step (some w) a = some w1 from h2] at h
      rw [ih w1 w' h, insert_address_housenumbers h2]

theorem compress_pipeline_housenumbers {addrs : List Address} {w : World}
    (h : compress_pipeline addrs = some w) :
    w.housenumbers = (build_tables addrs).2 := by
  unfold compress_pipeline at h
  dsimp only at h
  cases hf : (addrs.reverse.foldl insert_step
      (some ⟨(build_tables addrs).1, (build_tables addrs).2, []⟩)) with
  | none => rw [hf] at h; exact absurd h (by simp)
  | some w1 =>
    rw [hf] at h
    have hw : w = w1.sortW := by
      have := Option.some.inj h.symm
      exact this
    have hs : w1.sortW.housenumbers = w1.housenumbers := rfl
    rw [hw, hs]
    exact foldl_insert_housenumbers addrs.reverse _ w1 hf

/-- Claim C6: no string in the root housenumbers interning table built by the
compress pipeline is a clean decimal (the decimal rendering of a u16); hence
for a CleanInt value stored by the pipeline, its rendering never appears in
the root table of the built world. -/
theorem claim_C6_no_clean_decimal_interned (addrs : List Address) (n : Nat)
    (h : n ≤ 65535) :
    u16_to_string n ∉ (build_tables addrs).2
    ∧ ∀ w, compress_pipeline addrs = some w → u16_to_string n ∉ w.housenumbers := by
  have key : u16_to_string n ∉ (build_tables addrs).2 := by
    intro hmem
    unfold build_tables at hmem
    rw [mem_sorted_vec_of_set] at hmem
    obtain ⟨a, ha, hrender⟩ := List.mem_map.mp hmem
    have hfilter := (List.mem_filter.mp ha).2
    rw [hrender] at hfilter
    rw [num_compressable_render h] at hfilter
    cases hfilter
  refine ⟨key, ?_⟩
  intro w hw
  rw [compress_pipeline_housenumbers hw]
  exact key

/-- Witness for claim C6 on the minimal fixture, at the value 117. -/
theorem claim_C6_witness :
    (117 ≤ 65535) ∧ u16_to_string 117 ∉ (build_tables fixture).2 :=
  ⟨by decide, (claim_C6_no_clean_decimal_interned fixture 117 (by decide)).1⟩

/-! Idempotence of insertion (claim C9): the key of a container is never
changed by an insertion into it, and a repeated insertion finds the very
container the first insertion touched or created.  The `_nil` and `_cons`
lemmas are the defining equations of the list-insertion helpers. -/

theorem insert_housenumber_index (s : Street) (hn : Housenumber) :
    (s.insert_housenumber hn).index = s.index := by
  unfold Street.insert_housenumber
  split <;> rfl

theorem insert_housenumber_idem (s : Street) (hn : Housenumber) :
    (s.insert_housenumber hn).insert_housenumber hn = s.insert_housenumber hn := by
  by_cases h : s.housenumbers.contains hn
  · have e : s.insert_housenumber hn = s := by
      unfold Street.insert_housenumber
      rw [if_pos h]
    rw [e, e]
  · have e : s.insert_housenumber hn = ⟨s.index, s.housenumbers ++ [hn]⟩ := by
      unfold Street.insert_housenumber
      rw [if_neg h]
    rw [e]
    have hc : (⟨s.index, s.housenumbers ++ [hn]⟩ : Street).housenumbers.contains hn = true := by
      simp
    unfold Street.insert_housenumber
    rw [if_pos hc]

theorem insert_street_list_nil (si : Nat) (hn : Housenumber) :
    insert_street_list [] si hn = [Street.insert_housenumber ⟨si, []⟩ hn] := rfl

theorem insert_street_list_cons (s : Street) (rest : List Street) (si : Nat)
    (hn : Housenumber) :
    insert_street_list (s :: rest) si hn =
      if s.index = si then Street.insert_housenumber s hn :: rest
      else s :: insert_street_list rest si hn := rfl

theorem insert_street_list_idem (l : List Street) (si : Nat) (hn : Housenumber) :
    insert_street_list (insert_street_list l si hn) si hn =
      insert_street_list l si hn := by
  induction l with
  | nil =>
    rw [insert_street_list_nil, insert_street_list_cons, insert_housenumber_index]
    simp [insert_housenumber_idem]
  | cons s rest ih =>
    by_cases h : s.index = si
    · rw [insert_street_list_cons, if_pos h, insert_street_list_cons,
        insert_housenumber_index, if_pos h, insert_housenumber_idem]
    · rw [insert_street_list_cons, if_neg h, insert_street_list_cons, if_neg h, ih]

theorem area_insert_code (a : PostalArea) (si : Nat) (hn : Housenumber) :
    (a.insert_address si hn).code = a.code := rfl

theorem area_insert_idem (a : PostalArea) (si : Nat) (hn : Housenumber) :
    (a.insert_address si hn).insert_address si hn = a.insert_address si hn := by
  unfold PostalArea.insert_address
  simp [insert_street_list_idem]

theorem insert_area_list_nil (z : String) (si : Nat) (hn : Housenumber) :
    insert_area_list [] z si hn = [PostalArea.insert_address ⟨z, []⟩ si hn] := rfl

theorem insert_area_list_cons (a : PostalArea) (rest : List PostalArea)
    (z : String) (si : Nat) (hn : Housenumber) :
    insert_area_list (a :: rest) z si hn =
      if a.code = z then a.insert_address si hn :: rest
      else a :: insert_area_list rest z si hn := rfl

theorem insert_area_list_idem (l : List PostalArea) (z : String) (si : Nat)
    (hn : Housenumber) :
    insert_area_list (insert_area_list l z si hn) z si hn =
      insert_area_list l z si hn := by
  induction l with
  | nil =>
    rw [insert_area_list_nil, insert_area_list_cons, area_insert_code]
    simp [area_insert_idem]
  | cons a rest ih =>
    by_cases h : a.code = z
    · rw [insert_area_list_cons, if_pos h, insert_area_list_cons,
        area_insert_code, if_pos h, area_insert_idem]
    · rw [insert_area_list_cons, if_neg h, insert_area_list_cons, if_neg h, ih]

theorem city_insert_name (c : City) (z : String) (si : Nat) (hn : Housenumber) :
    (c.insert_address z si hn).name = c.name := rfl

theorem city_insert_idem (c : City) (z : String) (si : Nat) (hn : Housenumber) :
    (c.insert_address z si hn).insert_address z si hn = c.insert_address z si hn := by
  unfold City.insert_address
  simp [insert_area_list_idem]

theorem insert_city_list_nil (ci z : String) (si : Nat) (hn : Housenumber) :
    insert_city_list [] ci z si hn = [City.insert_address ⟨ci, []⟩ z si hn] := rfl

theorem insert_city_list_cons (c : City) (rest : List City) (ci z : String)
    (si : Nat) (hn : Housenumber) :
    insert_city_list (c :: rest) ci z si hn =
      if c.name = ci then c.insert_address z si hn :: rest
      else c :: insert_city_list rest ci z si hn := rfl

theorem insert_city_list_idem (l : List City) (ci z : String) (si : Nat)
    (hn : Housenumber) :
    insert_city_list (insert_city_list l ci z si hn) ci z si hn =
      insert_city_list l ci z si hn := by
  induction l with
  | nil =>
    rw [insert_city_list_nil, insert_city_list_cons, city_insert_name]
    simp [city_insert_idem]
  | cons c rest ih =>
    by_cases h : c.name = ci
    · rw [insert_city_list_cons, if_pos h, insert_city_list_cons,
        city_insert_name, if_pos h, city_insert_idem]
    · rw [insert_city_list_cons, if_neg h, insert_city_list_cons, if_neg h, ih]

theorem country_insert_code (c : Country) (ci z : String) (si : Nat)
    (hn : Housenumber) : (c.insert_address ci z si hn).code = c.code := rfl

theorem country_insert_idem (c : Country) (ci z : String) (si : Nat)
    (hn : Housenumber) :
    (c.insert_address ci z si hn).insert_address ci z si hn =
      c.insert_address ci z si hn := by
  unfold Country.insert_address
  simp [insert_city_list_idem]

theorem insert_country_list_nil (cc ci z : String) (si : Nat) (hn : Housenumber) :
    insert_country_list [] cc ci z si hn =
      [Country.insert_address ⟨cc, []⟩ ci z si hn] := rfl

theorem insert_country_list_cons (c : Country) (rest : List Country)
    (cc ci z : String) (si : Nat) (hn : Housenumber) :
    insert_country_list (c :: rest) cc ci z si hn =
      if c.code = cc then c.insert_address ci z si hn :: rest
      else c :: insert_country_list rest cc ci z si hn := rfl

theorem insert_country_list_idem (l : List Country) (cc ci z : String)
    (si : Nat) (hn : Housenumber) :
    insert_country_list (insert_country_list l cc ci z si hn) cc ci z si hn =
      insert_country_list l cc ci z si hn := by
  induction l with
  | nil =>
    rw [insert_country_list_nil, insert_country_list_cons, country_insert_code]
    simp [country_insert_idem]
  | cons c rest ih =>
    by_cases h : c.code = cc
    · rw [insert_country_list_cons, if_pos h, insert_country_list_cons,
        country_insert_code, if_pos h, country_insert_idem]
    · rw [insert_country_list_cons, if_neg h, insert_country_list_cons,
        if_neg h, ih]

/-- Claim C9: house-number insertion is idempotent: for every World and every
full (country, city, postcode, street, housenumber) tuple, inserting the
tuple twice yields exactly the same World as inserting it once (and a panic
on the first insertion is the same panic on the repeat). -/
theorem claim_C9_insert_idempotent (w : World)
    (country_code city_name zip street housenumber : String) :
    (w.insert_address country_code city_name zip street housenumber).bind
        (fun w2 => w2.insert_address country_code city_name zip street housenumber)
      = w.insert_address country_code city_name zip street housenumber := by
  cases h1 : w.classify_housenumber housenumber with
  | none =>
    have e : w.insert_address country_code city_name zip street housenumber = none := by
      unfold World.insert_address
      rw [h1]
    rw [e]
    rfl
  | some hv =>
    cases h2 : binary_search w.unique_streets street with
    | none =>
      have e : w.insert_address country_code city_name zip street housenumber = none := by
        unfold World.insert_address
        rw [h1, h2]
      rw [e]
      rfl
    | some si =>
      have e : w.insert_address country_code city_name zip street housenumber =
          some (World.mk w.unique_streets w.housenumbers
            (insert_country_list w.countries country_code city_name zip si hv)) := by
        unfold World.insert_address
        rw [h1, h2]
      rw [e]
      dsimp only [Option.bind]
      have h1b : (World.mk w.unique_streets w.housenumbers
          (insert_country_list w.countries country_code city_name zip si hv)).classify_housenumber
          housenumber = some hv := h1
      have h2b : binary_search (World.mk w.unique_streets w.housenumbers
          (insert_country_list w.countries country_code city_name zip si hv)).unique_streets
          street = some si := h2
      unfold World.insert_address
      rw [h1b, h2b]
      dsimp only
      rw [insert_country_list_idem]

/-! Order properties of the modelled Rust string comparison, needed for the
sortedness of the `sort_by` results (claim C7). -/

theorem chars_le_total : ∀ (a b : List Char), chars_le a b = true ∨ chars_le b a = true := by
  intro a
  induction a with
  | nil => intro b; left; rfl
  | cons x as ih =>
    intro b
    cases b with
    | nil => right; rfl
    | cons y bs =>
      by_cases h1 : x.toNat < y.toNat
      · left; simp [chars_le, h1]
      · by_cases h2 : y.toNat < x.toNat
        · right; simp [chars_le, h1, h2]
        · rcases ih bs with h | h
          · left; simp [chars_le, h1, h2, h]
          · right; simp [chars_le, h1, h2, h]

theorem chars_le_trans :
    ∀ (a b c : List Char), chars_le a b = true → chars_le b c = true →
      chars_le a c = true := by
  intro a
  induction a with
  | nil => intro b c _ _; rfl
  | cons x as ih =>
    intro b c hab hbc
    cases b with
    | nil => simp [chars_le] at hab
    | cons y bs =>
      cases c with
      | nil => simp [chars_le] at hbc
      | cons z cs =>
        simp only [chars_le] at hab hbc ⊢
        by_cases hxy : x.toNat < y.toNat
        · by_cases hyz : y.toNat < z.toNat
          · have hxz : x.toNat < z.toNat := by omega
            simp [hxz]
          · by_cases hzy : z.toNat < y.toNat
            · rw [if_neg hyz, if_pos hzy] at hbc; cases hbc
            · have hxz : x.toNat < z.toNat := by omega
              simp [hxz]
        · by_cases hyx : y.toNat < x.toNat
          · rw [if_neg hxy, if_pos hyx] at hab; cases hab
          · by_cases hyz : y.toNat < z.toNat
            · have hxz : x.toNat < z.toNat := by omega
              simp [hxz]
            · by_cases hzy : z.toNat < y.toNat
              · rw [if_neg hyz, if_pos hzy] at hbc; cases hbc
              · have hxz : ¬x.toNat < z.toNat := by omega
                have hzx : ¬z.toNat < x.toNat := by omega
                rw [if_neg hxy, if_neg hyx] at hab
                rw [if_neg hyz, if_neg hzy] at hbc
                rw [if_neg hxz, if_neg hzx]
                exact ih bs cs hab hbc

theorem str_le_total (a b : String) : str_le a b = true ∨ str_le b a = true :=
  chars_le_total a.data b.data

theorem str_le_trans {a b c : String} (h1 : str_le a b = true)
    (h2 : str_le b c = true) : str_le a c = true :=
  chars_le_trans a.data b.data c.data h1 h2

theorem sorted_insertionSort_str {α : Type} (f : α → String) (l : List α) :
    (l.insertionSort (fun x y => str_le (f x) (f y) = true)).Pairwise
      (fun x y => str_le (f x) (f y) = true) := by
  haveI : IsTotal α (fun x y => str_le (f x) (f y) = true) :=
    ⟨fun a b => str_le_total (f a) (f b)⟩
  haveI : IsTrans α (fun x y => str_le (f x) (f y) = true) :=
    ⟨fun a b c hab hbc => str_le_trans hab hbc⟩
  exact List.sorted_insertionSort _ l

theorem sorted_insertionSort_nat {α : Type} (f : α → Nat) (l : List α) :
    (l.insertionSort (fun x y => f x ≤ f y)).Pairwise (fun x y => f x ≤ f y) := by
  haveI : IsTotal α (fun x y => f x ≤ f y) := ⟨fun a b => Nat.le_total (f a) (f b)⟩
  haveI : IsTrans α (fun x y => f x ≤ f y) :=
    ⟨fun a b c hab hbc => Nat.le_trans hab hbc⟩
  exact List.sorted_insertionSort _ l

/-- Claim C7: after World::sort, every level is in its canonical order:
countries ascending by code, cities by name, postal areas by postcode,
streets by street id, and the house numbers within each street ascending
lexicographically by their rendered string form; concretely the rendered
order puts CleanInt 1 before CleanInt 10 before CleanInt 2. -/
theorem claim_C7_sorted (w : World) :
    ((w.sortW).countries.Pairwise (fun x y => str_le x.code y.code = true))
    ∧ (∀ c ∈ (w.sortW).countries,
        (c.cities.Pairwise (fun x y => str_le x.name y.name = true))
        ∧ ∀ ci ∈ c.cities,
            (ci.areas.Pairwise (fun x y => str_le x.code y.code = true))
            ∧ ∀ ar ∈ ci.areas,
                (ar.streets.Pairwise (fun x y => x.index ≤ y.index))
                ∧ ∀ st ∈ ar.streets,
                    st.housenumbers.Pairwise (fun a b =>
                      str_le (w.render_housenumber a) (w.render_housenumber b) = true))
    ∧ (Street.sort_with c3_world
        ⟨0, [Housenumber.CleanInt 2, Housenumber.CleanInt 10,
             Housenumber.CleanInt 1]⟩).housenumbers
        = [Housenumber.CleanInt 1, Housenumber.CleanInt 10,
           Housenumber.CleanInt 2] := by
  refine ⟨?_, ?_, by decide⟩
  · show ((w.countries.insertionSort (fun x y => str_le x.code y.code = true)).map
        (Country.sort_with w)).Pairwise (fun x y => str_le x.code y.code = true)
    rw [List.pairwise_map]
    exact sorted_insertionSort_str (fun c : Country => c.code) w.countries
  · intro c hc
    have hc2 : c ∈ (w.countries.insertionSort
        (fun x y => str_le x.code y.code = true)).map (Country.sort_with w) := hc
    obtain ⟨c0, _, rfl⟩ := List.mem_map.mp hc2
    constructor
    · show ((c0.cities.insertionSort (fun x y => str_le x.name y.name = true)).map
          (City.sort_with w)).Pairwise (fun x y => str_le x.name y.name = true)
      rw [List.pairwise_map]
      exact sorted_insertionSort_str (fun x : City => x.name) c0.cities
    · intro ci hci
      have hci2 : ci ∈ (c0.cities.insertionSort
          (fun x y => str_le x.name y.name = true)).map (City.sort_with w) := hci
      obtain ⟨ci0, _, rfl⟩ := List.mem_map.mp hci2
      constructor
      · show ((ci0.areas.insertionSort (fun x y => str_le x.code y.code = true)).map
            (PostalArea.sort_with w)).Pairwise (fun x y => str_le x.code y.code = true)
        rw [List.pairwise_map]
        exact sorted_insertionSort_str (fun x : PostalArea => x.code) ci0.areas
      · intro ar har
        have har2 : ar ∈ (ci0.areas.insertionSort
            (fun x y => str_le x.code y.code = true)).map (PostalArea.sort_with w) := har
        obtain ⟨ar0, _, rfl⟩ := List.mem_map.mp har2
        constructor
        · show ((ar0.streets.insertionSort (fun x y => x.index ≤ y.index)).map
              (Street.sort_with w)).Pairwise (fun x y => x.index ≤ y.index)
          rw [List.pairwise_map]
          exact sorted_insertionSort_nat (fun x : Street => x.index) ar0.streets
        · intro st hst
          have hst2 : st ∈ (ar0.streets.insertionSort
              (fun x y => x.index ≤ y.index)).map (Street.sort_with w) := hst
          obtain ⟨st0, _, rfl⟩ := List.mem_map.mp hst2
          show (st0.housenumbers.insertionSort (fun a b =>
              str_le (w.render_housenumber a) (w.render_housenumber b) = true)).Pairwise
            (fun a b => str_le (w.render_housenumber a) (w.render_housenumber b) = true)
          exact sorted_insertionSort_str (fun a => w.render_housenumber a) st0.housenumbers

/-- Witness for claim C7 at the concrete world `c3_world`, with the
member hypotheses discharged on its single country. -/
theorem claim_C7_witness :
    ((c3_world.sortW).countries.Pairwise (fun x y => str_le x.code y.code = true))
    ∧ ((Country.sort_with c3_world
          ⟨"DE", [⟨"Berlin", [⟨"10115", [⟨0, [Housenumber.CleanInt 1]⟩]⟩]⟩]⟩).cities.Pairwise
        (fun x y => str_le x.name y.name = true)) :=
  ⟨(claim_C7_sorted c3_world).1,
   ((claim_C7_sorted c3_world).2.1 _ (by decide)).1⟩

/-! Claim C10: behaviour of `avg_coords` on all-present coordinate lists and
on the empty list, and the resulting panic of `pass_two` on a way with an
empty node list. -/

theorem avg_coords_go_all_some :
    ∀ (l : List (Int × Int)) (a b c : Int),
      avg_coords_go a b c (l.map some) =
        if c + l.length = 0 then Except.error ()
        else Except.ok (some
          (Int.tdiv (l.foldl (fun x p => x + p.1) a) (c + l.length),
           Int.tdiv (l.foldl (fun x p => x + p.2) b) (c + l.length))) := by
  intro l
  induction l with
  | nil =>
    intro a b c
    simp [avg_coords_go]
  | cons p t ih =>
    intro a b c
    obtain ⟨p1, p2⟩ := p
    rw [List.map_cons]
    show avg_coords_go (a + p1) (b + p2) (c + 1) (t.map some) = _
    rw [ih]
    simp only [List.foldl_cons, List.length_cons]
    have e : (c + 1) + (t.length : Int) = c + (((t.length + 1 : Nat) : Int)) := by
      push_cast
      ring
    rw [e]

/-- Claim C10: avg_coords divides the accumulated sums by the element count
with no zero guard: on a non-empty all-Some list it returns Some of the
component-wise sums divided (truncating toward zero) by the count, on the
empty list the division by count = 0 panics, and therefore pass_two panics
rather than returning an error on an address-bearing way with an empty node
list. -/
theorem claim_C10_avg_coords :
    (∀ l : List (Int × Int), l ≠ [] →
      avg_coords (l.map some) = Except.ok (some
        (Int.tdiv (l.foldl (fun x p => x + p.1) 0) (l.length : Int),
         Int.tdiv (l.foldl (fun x p => x + p.2) 0) (l.length : Int))))
    ∧ avg_coords ([] : List (Option (Int × Int))) = Except.error ()
    ∧ (∀ (required : List Int) (coords : List (Int × Int × Int)) (id : Int)
        (tags : List (String × String)) (rest : List OsmObj),
        is_address tags = true →
        pass_two_go required coords (OsmObj.way id tags [] :: rest) =
          Except.error Failure.panic) := by
  refine ⟨?_, rfl, ?_⟩
  · intro l hl
    unfold avg_coords
    rw [avg_coords_go_all_some]
    have hpos : ¬((0 : Int) + l.length = 0) := by
      cases l with
      | nil => exact absurd rfl hl
      | cons p t =>
        simp only [List.length_cons]
        push_cast
        omega
    rw [if_neg hpos]
    norm_num
  · intro required coords id tags rest h
    simp [pass_two_go, OsmObj.tags, h, avg_coords, avg_coords_go]

/-- Witness for claim C10 at the list [(1, 2), (3, 4)] and a concrete empty
way. -/
theorem claim_C10_witness :
    ([((1 : Int), (2 : Int)), (3, 4)] ≠ ([] : List (Int × Int)))
    ∧ avg_coords ([((1 : Int), (2 : Int)), (3, 4)].map some) =
        Except.ok (some ((2 : Int), (3 : Int)))
    ∧ is_address rel_tags = true
    ∧ pass_two_go [] [] [OsmObj.way 9 rel_tags []] = Except.error Failure.panic := by
  refine ⟨by decide, ?_, by decide,
    claim_C10_avg_coords.2.2 [] [] 9 rel_tags [] (by decide)⟩
  have h := claim_C10_avg_coords.1 [((1 : Int), (2 : Int)), (3, 4)] (by decide)
  rw [h]
  rfl

/-! Claim C2: per-entity accounting of the extraction passes.  The `_eq`
lemmas are the defining equations of `pass_two_go` per entity shape. -/

theorem pass_two_go_rel_eq (required : List Int) (coords : List (Int × Int × Int))
    (id : Int) (t : List (String × String)) (rest : List OsmObj) :
    pass_two_go required coords (OsmObj.relation id t :: rest) =
      pass_two_go required coords rest := by
  by_cases ha : is_address t <;> simp [pass_two_go, OsmObj.tags, ha]

theorem pass_two_go_way_eq (required : List Int) (coords : List (Int × Int × Int))
    (id : Int) (t : List (String × String)) (nds : List Int) (rest : List OsmObj)
    (ha : is_address t = true) :
    pass_two_go required coords (OsmObj.way id t nds :: rest) =
      match avg_coords (nds.map (fun nid => coords_get coords nid)) with
      | .error () => .error .panic
      | .ok none =>
        .error (.failure
          ("Way " ++ toString id ++ " requires nodes which have not been read yet"))
      | .ok (some (a, b)) =>
        (pass_two_go required coords rest).map (fun out => way_record t a b :: out) := by
  simp [pass_two_go, OsmObj.tags, ha]

theorem pass_two_go_way_skip (required : List Int) (coords : List (Int × Int × Int))
    (id : Int) (t : List (String × String)) (nds : List Int) (rest : List OsmObj)
    (ha : is_address t = false) :
    pass_two_go required coords (OsmObj.way id t nds :: rest) =
      pass_two_go required coords rest := by
  simp [pass_two_go, OsmObj.tags, ha]

theorem pass_two_go_node_eq (required : List Int) (coords : List (Int × Int × Int))
    (id : Int) (t : List (String × String)) (lon lat : Int) (rest : List OsmObj) :
    pass_two_go required coords (OsmObj.node id t lon lat :: rest) =
      if is_address t && required.contains id then
        pass_two_go required ((id, lon, lat) :: coords) rest
      else pass_two_go required coords rest := by
  by_cases ha : is_address t
  · by_cases hr : required.contains id <;> simp [pass_two_go, OsmObj.tags, ha, hr]
  · simp [pass_two_go, OsmObj.tags, ha]

theorem pass_one_length (objs : List OsmObj) :
    (pass_one objs).1.length = objs.countP is_addr_node := by
  induction objs with
  | nil => rfl
  | cons o rest ih =>
    cases o with
    | node id t lon lat =>
      by_cases h : is_address t <;>
        simp [pass_one, OsmObj.tags, h, is_addr_node, List.countP_cons, ih]
    | way id t nds =>
      by_cases h : is_address t <;>
        simp [pass_one, OsmObj.tags, h, is_addr_node, List.countP_cons, ih]
    | relation id t =>
      by_cases h : is_address t <;>
        simp [pass_one, OsmObj.tags, h, is_addr_node, List.countP_cons, ih]

theorem pass_two_go_length :
    ∀ (objs : List OsmObj) (required : List Int)
      (coords : List (Int × Int × Int)) (out : List IncompleteAddressCoord),
      pass_two_go required coords objs = Except.ok out →
      out.length = objs.countP is_addr_way := by
  intro objs
  induction objs with
  | nil =>
    intro required coords out h
    have : ([] : List IncompleteAddressCoord) = out := Except.ok.inj h
    rw [← this]
    rfl
  | cons o rest ih =>
    intro required coords out h
    cases o with
    | relation id t =>
      rw [pass_two_go_rel_eq] at h
      simp [List.countP_cons, is_addr_way, ih _ _ _ h]
    | node id t lon lat =>
      rw [pass_two_go_node_eq] at h
      by_cases hc : is_address t && required.contains id
      · rw [if_pos hc] at h
        simp [List.countP_cons, is_addr_way, ih _ _ _ h]
      · rw [if_neg hc] at h
        simp [List.countP_cons, is_addr_way, ih _ _ _ h]
    | way id t nds =>
      by_cases ha : is_address t
      · rw [pass_two_go_way_eq _ _ _ _ _ _ ha] at h
        cases havg : avg_coords (nds.map (fun nid => coords_get coords nid)) with
        | error u =>
          cases u
          rw [havg] at h
          cases h
        | ok oc =>
          rw [havg] at h
          cases oc with
          | none => cases h
          | some pr =>
            obtain ⟨a, b⟩ := pr
            cases hrec : pass_two_go required coords rest with
            | error f => rw [hrec] at h; cases h
            | ok out2 =>
              rw [hrec] at h
              have : way_record t a b :: out2 = out := Except.ok.inj h
              rw [← this]
              simp [List.countP_cons, is_addr_way, ha, ih _ _ _ hrec]
      · rw [pass_two_go_way_skip _ _ _ _ _ _ (by simp [ha])] at h
        simp [List.countP_cons, is_addr_way, ha, ih _ _ _ h]

theorem pass_two_go_error :
    ∀ (objs : List OsmObj) (required : List Int)
      (coords : List (Int × Int × Int)) (msg : String),
      pass_two_go required coords objs = Except.error (Failure.failure msg) →
      ∃ id t nds, OsmObj.way id t nds ∈ objs ∧ is_address t = true ∧
        msg = "Way " ++ toString id ++ " requires nodes which have not been read yet" := by
  intro objs
  induction objs with
  | nil => intro required coords msg h; cases h
  | cons o rest ih =>
    intro required coords msg h
    cases o with
    | relation id t =>
      rw [pass_two_go_rel_eq] at h
      obtain ⟨i, t2, n2, hm, ht, he⟩ := ih _ _ _ h
      exact ⟨i, t2, n2, List.mem_cons_of_mem _ hm, ht, he⟩
    | node id t lon lat =>
      rw [pass_two_go_node_eq] at h
      by_cases hc : is_address t && required.contains id
      · rw [if_pos hc] at h
        obtain ⟨i, t2, n2, hm, ht, he⟩ := ih _ _ _ h
        exact ⟨i, t2, n2, List.mem_cons_of_mem _ hm, ht, he⟩
      · rw [if_neg hc] at h
        obtain ⟨i, t2, n2, hm, ht, he⟩ := ih _ _ _ h
        exact ⟨i, t2, n2, List.mem_cons_of_mem _ hm, ht, he⟩
    | way id t nds =>
      by_cases ha : is_address t
      · rw [pass_two_go_way_eq _ _ _ _ _ _ ha] at h
        cases havg : avg_coords (nds.map (fun nid => coords_get coords nid)) with
        | error u =>
          cases u
          rw [havg] at h
          cases h
        | ok oc =>
          rw [havg] at h
          cases oc with
          | none =>
            have hmsg : Failure.failure
                ("Way " ++ toString id ++ " requires nodes which have not been read yet") =
                Failure.failure msg := Except.error.inj h
            refine ⟨id, t, nds, List.mem_cons_self _ _, ha, ?_⟩
            exact (Failure.failure.inj hmsg).symm
          | some pr =>
            obtain ⟨a, b⟩ := pr
            cases hrec : pass_two_go required coords rest with
            | error f =>
              rw [hrec] at h
              have hf : f = Failure.failure msg := Except.error.inj h
              rw [hf] at hrec
              obtain ⟨i, t2, n2, hm, ht, he⟩ := ih _ _ _ hrec
              exact ⟨i, t2, n2, List.mem_cons_of_mem _ hm, ht, he⟩
            | ok out2 => rw [hrec] at h; cases h
      · rw [pass_two_go_way_skip _ _ _ _ _ _ (by simp [ha])] at h
        obtain ⟨i, t2, n2, hm, ht, he⟩ := ih _ _ _ h
        exact ⟨i, t2, n2, List.mem_cons_of_mem _ hm, ht, he⟩

/-- Claim C2 (amended): every address-bearing node or way either contributes
exactly one output record (the successful output has exactly one record per
address-bearing node plus one per address-bearing way), or the pipeline
fails with the diagnostic naming an address-bearing way of the input;
address-bearing relations are silently skipped and contribute nothing. -/
theorem claim_C2_amended (objs : List OsmObj) :
    (∀ out, process_osm objs = Except.ok out →
      out.length = objs.countP is_addr_node + objs.countP is_addr_way)
    ∧ (∀ msg, process_osm objs = Except.error (Failure.failure msg) →
      ∃ id t nds, OsmObj.way id t nds ∈ objs ∧ is_address t = true ∧
        msg = "Way " ++ toString id ++ " requires nodes which have not been read yet") := by
  constructor
  · intro out h
    unfold process_osm at h
    dsimp only at h
    cases h2 : pass_two (pass_one objs).2 objs with
    | error f => rw [h2] at h; cases h
    | ok out2 =>
      rw [h2] at h
      have : (pass_one objs).1 ++ out2 = out := Except.ok.inj h
      rw [← this, List.length_append, pass_one_length,
        pass_two_go_length objs _ _ _ h2]
  · intro msg h
    unfold process_osm at h
    dsimp only at h
    cases h2 : pass_two (pass_one objs).2 objs with
    | error f =>
      rw [h2] at h
      have hf : f = Failure.failure msg := Except.error.inj h
      rw [hf] at h2
      exact pass_two_go_error objs _ _ _ h2
    | ok out2 => rw [h2] at h; cases h

/-- Counterexample to claim C2 as stated: a relation carrying both
addr:housenumber and addr:street is address-bearing, yet the extraction
pipeline emits no record for it and does not fail. -/
theorem claim_C2_counterexample :
    is_address rel_tags = true
    ∧ process_osm [OsmObj.relation 5 rel_tags] = Except.ok [] := by
  exact ⟨by decide, rfl⟩

/-- Witness for claim C2 (amended) on a one-node input and on a way whose
nodes are missing. -/
theorem claim_C2_witness :
    (∃ out, process_osm [OsmObj.node 1 rel_tags 10 20] = Except.ok out
      ∧ out.length = 1)
    ∧ (∃ id t nds, OsmObj.way id t nds ∈ [OsmObj.way 9 rel_tags [1, 2]]
        ∧ is_address t = true
        ∧ "Way 9 requires nodes which have not been read yet" =
            "Way " ++ toString id ++ " requires nodes which have not been read yet") := by
  constructor
  · have h : process_osm [OsmObj.node 1 rel_tags 10 20] =
        Except.ok [node_record rel_tags 10 20] := rfl
    refine ⟨[node_record rel_tags 10 20], h, ?_⟩
    rw [(claim_C2_amended [OsmObj.node 1 rel_tags 10 20]).1 _ h]
    decide
  · have h : process_osm [OsmObj.way 9 rel_tags [1, 2]] =
        Except.error (Failure.failure
          "Way 9 requires nodes which have not been read yet") := rfl
    exact (claim_C2_amended [OsmObj.way 9 rel_tags [1, 2]]).2 _ h

/-- Claim C1 (code bug in pass_one and pass_two): the emitted record copies
the addr:postcode tag into all three of country, city and zip; only zip
agrees with the claim.  The constructor IncompleteAddress::from_tags of the
same source file maps every field from the tag of the same name, showing the
record literals in the passes to be a slip. -/
theorem claim_C1_extractor_fields :
    (node_record c1_tags 133876000 525313000).country = some "10115"
    ∧ (node_record c1_tags 133876000 525313000).city = some "10115"
    ∧ (node_record c1_tags 133876000 525313000).zip = some "10115"
    ∧ (way_record c1_tags 1 2).country = some "10115"
    ∧ (way_record c1_tags 1 2).city = some "10115"
    ∧ is_address c1_tags = true
    ∧ incomplete_address_from_tags c1_tags =
        some (some "DE", some "Berlin", some "10115", "Invalidenstr.", "117")
    ∧ process_osm [OsmObj.node 1 c1_tags 133876000 525313000] =
        Except.ok [⟨some "10115", some "10115", some "10115",
          "Invalidenstr.", "117", 133876000, 525313000⟩] :=
  ⟨rfl, rfl, rfl, rfl, rfl, by decide, by decide, rfl⟩

/-- Counterexample to claim C3 as stated: in the housenumbers lookup, the
404 body is one fixed string, so a query that fails at the country segment
(empty world) produces exactly the same body as a query that fails only at
the street segment (a world where country, city and zip all resolve); the
body does not name the deepest segment reached. -/
theorem claim_C3_counterexample :
    get_housenumbers empty_world "DE" "Berlin" "10115" "Foo" none none =
      Except.error (404, "Country/city/zip/street not found")
    ∧ get_housenumbers c3_world "DE" "Berlin" "10115" "Bar" none none =
      Except.error (404, "Country/city/zip/street not found")
    ∧ (c3_world.lookup_area_path "DE" "Berlin" "10115").isSome = true
    ∧ empty_world.get_country "DE" = none :=
  ⟨rfl, rfl, rfl, rfl⟩

/-- Claim C3 (amended): a query whose lookup path bottoms out is answered
with 404 and a fixed per-endpoint plain-text body that lists every segment
of that endpoint (and, for /cities, interpolates the queried country code);
the body identifies the endpoint, not the depth at which the lookup
failed. -/
theorem claim_C3_amended (w : World) (cc ci z st : String) (pre hdr : Option String) :
    (w.lookup_street_path cc ci z st = none →
      get_housenumbers w cc ci z st pre hdr =
        Except.error (404, "Country/city/zip/street not found"))
    ∧ (w.lookup_area_path cc ci z = none →
      get_streets w cc ci z pre hdr =
        Except.error (404, "Country/city/zip not found"))
    ∧ (w.lookup_city_path cc ci = none →
      get_zips w cc ci pre hdr = Except.error (404, "Country/city not found"))
    ∧ (w.get_country cc = none →
      get_cities w cc pre hdr =
        Except.error (404, "Country " ++ cc ++ " not found")) := by
  refine ⟨fun h => ?_, fun h => ?_, fun h => ?_, fun h => ?_⟩
  · unfold get_housenumbers
    rw [h]
  · unfold get_streets
    rw [h]
  · unfold get_zips
    rw [h]
  · unfold get_cities
    rw [h]

/-- Witness for claim C3 (amended) on the empty world. -/
theorem claim_C3_witness :
    get_housenumbers empty_world "SE" "Uppsala" "75105" "Storgatan" none none =
      Except.error (404, "Country/city/zip/street not found")
    ∧ get_streets empty_world "SE" "Uppsala" "75105" none none =
      Except.error (404, "Country/city/zip not found")
    ∧ get_zips empty_world "SE" "Uppsala" none none =
      Except.error (404, "Country/city not found")
    ∧ get_cities empty_world "SE" none none =
      Except.error (404, "Country SE not found") :=
  ⟨(claim_C3_amended empty_world "SE" "Uppsala" "75105" "Storgatan" none none).1 rfl,
   (claim_C3_amended empty_world "SE" "Uppsala" "75105" "Storgatan" none none).2.1 rfl,
   (claim_C3_amended empty_world "SE" "Uppsala" "75105" "Storgatan" none none).2.2.1 rfl,
   (claim_C3_amended empty_world "SE" "Uppsala" "75105" "Storgatan" none none).2.2.2 rfl⟩

/-- Counterexample to claim C4 as stated: matching is not ASCII-only
lowercasing.  The country code "Ö" matches the query "ö" (the code
lowercases both sides with the Unicode str::to_lowercase), although the two
strings differ and still differ after lowercasing only the ASCII letters
A-Z; likewise the stored house number "Ö1" is returned for the query
with the non-ASCII-lowerable query string "ö" as its string-of-interest. -/
theorem claim_C4_counterexample :
    (umlaut_world.get_country "ö").isSome = true
    ∧ "Ö" ≠ "ö"
    ∧ ascii_to_lowercase "Ö" ≠ ascii_to_lowercase "ö"
    ∧ Street.iter_housenumbers_prefixed ⟨0, [Housenumber.Index 0]⟩ "ö" umlaut_world
        = ["Ö1"]
    ∧ starts_with (ascii_to_lowercase "Ö1") (ascii_to_lowercase "ö") = false := by
  refine ⟨by decide, by decide, by decide, by decide, by decide⟩

/-- Claim C4 (amended): both parent-segment matching and prefix matching are
case-insensitive under the Unicode lowercasing of Rust str::to_lowercase
(modelled by to_lowercase): a stored segment matches the query exactly when
the lowercased strings are equal, and a house number is returned exactly
when its lowercased rendering starts with the lowercased query string. -/
theorem claim_C4_amended :
    (∀ (w : World) (cc : String),
      (w.get_country cc).isSome = true ↔
        ∃ c ∈ w.countries, to_lowercase c.code = to_lowercase cc)
    ∧ (∀ (s : Street) (w : World) (pre hn : String),
      hn ∈ s.iter_housenumbers_prefixed pre w ↔
        (hn ∈ s.housenumbers.map (fun h => w.render_housenumber h)
         ∧ starts_with (to_lowercase hn) (to_lowercase pre) = true)) := by
  constructor
  · intro w cc
    unfold World.get_country
    rw [List.find?_isSome]
    constructor
    · rintro ⟨c, hm, hp⟩
      exact ⟨c, hm, by simpa using hp⟩
    · rintro ⟨c, hm, hp⟩
      exact ⟨c, hm, by simpa using hp⟩
  · intro s w pre hn
    unfold Street.iter_housenumbers_prefixed Street.housenumber_iter
    rw [List.mem_filter]

/-- Witness for claim C4 (amended) at the query "ö" on `umlaut_world`. -/
theorem claim_C4_witness :
    (∃ c ∈ umlaut_world.countries, to_lowercase c.code = to_lowercase "ö")
    ∧ "Ö1" ∈ Street.iter_housenumbers_prefixed ⟨0, [Housenumber.Index 0]⟩ "ö"
        umlaut_world :=
  ⟨(claim_C4_amended.1 umlaut_world "ö").mp (by decide),
   (claim_C4_amended.2 ⟨0, [Housenumber.Index 0]⟩ umlaut_world "ö" "Ö1").mpr
     ⟨by decide, by decide⟩⟩

/-! Claim C8: the `max-items` bound. -/

theorem get_cities_eq_map (w : World) (cc : String) (pre hdr : Option String) :
    get_cities w cc pre hdr =
      (get_cities_unbounded w cc pre).map
        (fun l => l.take (max_items_from_header hdr)) := by
  unfold get_cities get_cities_unbounded
  cases h : w.get_country cc <;> rfl

/-- Counterexample to claim C8 as stated: with max-items 0 a request whose
lookup path bottoms out is answered 404, not 200 with an empty array. -/
theorem claim_C8_counterexample :
    parse_usize "0" = some 0
    ∧ get_cities empty_world "XX" none (some "0") =
        Except.error (404, "Country XX not found") :=
  ⟨rfl, rfl⟩

/-- Claim C8 (amended): the handler takes the first max-items results of the
unbounded query in stored order; an absent or unparseable header value means
the usize::MAX bound (so every result is returned); a header that parses as
N bounds the response to the first N results; and N = 0 yields status 200
with an empty array provided the lookup path resolves (a failing path is
still a 404). -/
theorem claim_C8_amended (w : World) (cc : String) (pre hdr : Option String) :
    (get_cities w cc pre hdr =
      (get_cities_unbounded w cc pre).map
        (fun l => l.take (max_items_from_header hdr)))
    ∧ max_items_from_header none = usize_max
    ∧ (∀ s, parse_usize s = none → max_items_from_header (some s) = usize_max)
    ∧ (∀ s N, parse_usize s = some N → max_items_from_header (some s) = N)
    ∧ (∀ res, get_cities_unbounded w cc pre = Except.ok res →
        res.length ≤ usize_max → get_cities w cc pre none = Except.ok res)
    ∧ (∀ res, get_cities_unbounded w cc pre = Except.ok res →
        get_cities w cc pre (some "0") = Except.ok []) := by
  refine ⟨get_cities_eq_map w cc pre hdr, rfl, ?_, ?_, ?_, ?_⟩
  · intro s hs
    simp [max_items_from_header, hs]
  · intro s N hs
    simp [max_items_from_header, hs]
  · intro res h hlen
    rw [get_cities_eq_map w cc pre none, h]
    show Except.ok (res.take (max_items_from_header none)) = Except.ok res
    rw [show max_items_from_header none = usize_max from rfl,
      List.take_of_length_le hlen]
  · intro res h
    rw [get_cities_eq_map w cc pre (some "0"), h]
    show Except.ok (res.take (max_items_from_header (some "0"))) = Except.ok []
    rw [show max_items_from_header (some "0") = 0 from rfl, List.take_zero]

/-- Witness for claim C8 (amended) on the one-city world `c3_world`. -/
theorem claim_C8_witness :
    get_cities c3_world "DE" none none = Except.ok ["Berlin"]
    ∧ get_cities c3_world "DE" none (some "0") = Except.ok []
    ∧ (["Berlin"] : List String).length ≤ usize_max :=
  ⟨(claim_C8_amended c3_world "DE" none none).2.2.2.2.1 ["Berlin"] rfl
      (by norm_num [usize_max]),
   (claim_C8_amended c3_world "DE" none none).2.2.2.2.2 ["Berlin"] rfl,
   by norm_num [usize_max]⟩
